import Mathlib

/-!
Verification development for the PoemVisualizer scene playback engine
(`src/components/Player.tsx`).

The Player component is embedded shallowly:

* The PCM decoding code inside `playVoice` (lines 49-72 of Player.tsx) is
  embedded as pure functions over byte lists (`pcmSamples`, `decodedSamples`,
  `decodeAudio`).  `createBuffer(1, 0, ...)` throws for a zero frame count,
  which the embedding renders as `DecodeError.emptyInput`.
* The React component state (`currentIndex`, `isPlaying`, `isMuted`,
  `hasEnded`) together with the refs and scheduled callbacks is embedded as
  the record `PlayerState`.  Source objects are identified by a fresh
  number drawn from `nextId`; `armed = some (a, cap)` means the source with
  identity `a` currently has its `onended` handler attached, and `cap` is the
  `currentIndex` value captured by that handler's closure at arm time.
  Setting `onended = null` on replacement is embedded as the `armed` slot
  being overwritten, so a completion event that names a stale identity finds
  no attached handler.  `timers` counts pending 1-second `setTimeout`
  auto-advances scheduled by `onended`; their body is
  `setCurrentIndex(prev => prev + 1)`, embedded as an unconditional
  increment at fire time.  `ctxRunning` is the AudioContext running/suspended
  flag, `decodes` counts successful PCM decodes performed by `playVoice`,
  and `srcSet` records whether `voiceSourceRef.current` is non-null.
* Each user intent or device event is an `Ev`; `step` applies the
  corresponding handler and then, exactly when one of the effect dependencies
  `[currentIndex, isPlaying, isMuted]` changed, runs the body of the scene
  playback `useEffect` (lines 108-129), mirroring React's dependency
  comparison.  Asynchronous `AudioContext.resume()` is modelled as taking
  effect immediately; completion and timer events are modelled as externally
  scheduled events that `step` receives one at a time (single cooperative
  control domain, as in the browser's event loop).
-/

namespace PoemVisualizer

/-- Result of attempting to decode a narration payload; `emptyInput` embeds
the `NotSupportedError` thrown by `createBuffer` when the frame count is 0
(zero- or one-byte payloads). -/
inductive DecodeError where
  | emptyInput
deriving DecidableEq, Repr

/-- Reads one signed 16-bit little-endian sample from two bytes, as the
`Int16Array` view over the byte buffer does in `playVoice`. -/
def toInt16 (lo hi : ℕ) : ℤ :=
  let u : ℕ := lo % 256 + 256 * (hi % 256)
  if u < 32768 then (u : ℤ) else (u : ℤ) - 65536

/-- Consecutive byte pairs as signed 16-bit little-endian samples; a trailing
odd byte is discarded, embedding `safeLen = len % 2 === 0 ? len : len - 1`
and the `Int16Array` view over `bytes.buffer.slice(0, safeLen)`. -/
def pcmSamples : List ℕ → List ℤ
  | lo :: hi :: rest => toInt16 lo hi :: pcmSamples rest
  | _ => []

/-- Float samples written to the channel data: each 16-bit sample `s` is
mapped to `s / 32768.0` (exact in binary floating point, so embedded in ℚ). -/
def decodedSamples (bytes : List ℕ) : List ℚ :=
  (pcmSamples bytes).map (fun s : ℤ => (s : ℚ) / 32768)

/-- Decoding a narration payload as `playVoice` does: produce the scaled
sample list, failing when the frame count would be zero (in the source,
`createBuffer(1, 0, 24000)` throws and the `catch` block is taken). -/
def decodeAudio (bytes : List ℕ) : Except DecodeError (List ℚ) :=
  if bytes.length < 2 then .error .emptyInput else .ok (decodedSamples bytes)

/-- Static configuration of one playback run: the number of scenes and, per
scene index, the raw narration bytes when `scene.audioBase64` is present. -/
structure Cfg where
  N : ℕ
  narration : ℕ → Option (List ℕ)

/-- Snapshot of the Player's React state and refs.  See the module
docstring for the reading of each field. -/
structure PlayerState where
  index : ℕ
  playing : Bool
  muted : Bool
  ended : Bool
  armed : Option (ℕ × ℕ)
  nextId : ℕ
  timers : ℕ
  ctxRunning : Bool
  decodes : ℕ
  srcSet : Bool
deriving DecidableEq, Repr

/-- The body of `playVoice` (Player.tsx lines 39-105) for the scene at
`s.index`: it first nulls the previous source's `onended` handler and stops
that source, then decodes; on success it arms a fresh source (new identity
`s.nextId`, closure capturing the current index), on failure (caught by the
`try/catch`) it leaves the rest of the state untouched. -/
def playVoice (cfg : Cfg) (s : PlayerState) : PlayerState :=
  match cfg.narration s.index with
  | none => { s with armed := none }
  | some bytes =>
    match decodeAudio bytes with
    | .error _ => { s with armed := none }
    | .ok _ =>
      { s with
        armed := some (s.nextId, s.index)
        nextId := s.nextId + 1
        decodes := s.decodes + 1
        srcSet := true }

/-- The scene playback `useEffect` body (Player.tsx lines 108-129): bail out
when not playing; when muted, suspend the context and return; otherwise
resume the context and invoke `playVoice` when the current scene exists and
has narration bytes. -/
def effect (cfg : Cfg) (s : PlayerState) : PlayerState :=
  if s.playing = false then s
  else if s.muted = true then { s with ctxRunning := false }
  else if s.index < cfg.N then
    match cfg.narration s.index with
    | some _ => playVoice cfg { s with ctxRunning := true }
    | none => { s with ctxRunning := true }
  else { s with ctxRunning := true }

/-- The dependency array `[currentIndex, isPlaying, isMuted]` of the scene
playback effect. -/
def deps (s : PlayerState) : ℕ × Bool × Bool := (s.index, s.playing, s.muted)

/-- Runs a handler result through React's effect scheduling: the effect body
re-runs exactly when the dependency array changed relative to the previous
render. -/
def withEffect (cfg : Cfg) (s0 s1 : PlayerState) : PlayerState :=
  if deps s0 = deps s1 then s1 else effect cfg s1

/-- `handleNext` (Player.tsx lines 168-174): always clear `hasEnded`; advance
and force playing only strictly below the last index. -/
def handleNext (cfg : Cfg) (s : PlayerState) : PlayerState :=
  if s.index < cfg.N - 1 then
    { s with ended := false, index := s.index + 1, playing := true }
  else { s with ended := false }

/-- `handlePrev` (Player.tsx lines 176-182): always clear `hasEnded`; step
back and force playing only at a positive index. -/
def handlePrev (s : PlayerState) : PlayerState :=
  if 0 < s.index then
    { s with ended := false, index := s.index - 1, playing := true }
  else { s with ended := false }

/-- The scene thumbnail `onClick` (Player.tsx lines 301-305): set the index
to the clicked thumbnail's position, start playing, clear `hasEnded`.  The
handler itself performs no range check. -/
def handleSelect (j : ℕ) (s : PlayerState) : PlayerState :=
  { s with index := j, playing := true, ended := false }

/-- `handleReplay` (Player.tsx lines 184-189). -/
def handleReplay (s : PlayerState) : PlayerState :=
  { s with ended := false, index := 0, playing := true, ctxRunning := true }

/-- `handlePlayPause` (Player.tsx lines 140-166).  Pausing suspends the
context; playing from `hasEnded` restarts at scene 0; otherwise resume the
context and, only when no source object exists yet, issue `playVoice` for
the current scene directly (with the context just resumed, the
`context.state === 'running'` test reduces to whether a source exists). -/
def handlePlayPause (cfg : Cfg) (s : PlayerState) : PlayerState :=
  if s.playing = true then { s with playing := false, ctxRunning := false }
  else if s.ended = true then
    { s with ended := false, index := 0, playing := true, ctxRunning := true }
  else if s.srcSet = true then { s with playing := true, ctxRunning := true }
  else if s.index < cfg.N then
    match cfg.narration s.index with
    | some _ => playVoice cfg { s with playing := true, ctxRunning := true }
    | none => { s with playing := true, ctxRunning := true }
  else { s with playing := true, ctxRunning := true }

/-- The `source.onended` callback (Player.tsx lines 86-100) of the source
with identity `k`: it runs only while that source's handler is still
attached (a superseded source had `onended` set to `null`).  `cap` is the
`currentIndex` captured by the closure at arm time: below the last index the
callback schedules the 1-second auto-advance timeout, at the last index it
stops playing and sets `hasEnded`. -/
def onended (cfg : Cfg) (s : PlayerState) (k : ℕ) : PlayerState :=
  match s.armed with
  | some (a, cap) =>
    if a = k then
      if cap < cfg.N - 1 then { s with armed := none, timers := s.timers + 1 }
      else { s with armed := none, playing := false, ended := true }
    else s
  | none => s

/-- Events processed by the Player's single cooperative control domain:
user intents, device completion notifications, and timer firings. -/
inductive Ev where
  | uNext
  | uPrev
  | uPlayPause
  | uMute
  | uReplay
  | uSelect (j : ℕ)
  | complete (k : ℕ)
  | timerFire
deriving DecidableEq, Repr

/-- One event of the Player: the corresponding handler runs, then the scene
playback effect re-runs if its dependencies changed.  A timer firing
executes `setCurrentIndex(prev => prev + 1)` (it is enabled only while a
timeout is pending). -/
def step (cfg : Cfg) (s : PlayerState) : Ev → PlayerState
  | .uNext => withEffect cfg s (handleNext cfg s)
  | .uPrev => withEffect cfg s (handlePrev s)
  | .uPlayPause => withEffect cfg s (handlePlayPause cfg s)
  | .uMute => withEffect cfg s { s with muted := !s.muted }
  | .uReplay => withEffect cfg s (handleReplay s)
  | .uSelect j => withEffect cfg s (handleSelect j s)
  | .complete k => withEffect cfg s (onended cfg s k)
  | .timerFire =>
    if s.timers = 0 then s
    else withEffect cfg s { s with timers := s.timers - 1, index := s.index + 1 }

/-- State on mount, before any effect ran: all flags clear, no context, no
source, no pending timers. -/
def initState : PlayerState :=
  { index := 0, playing := false, muted := false, ended := false
    armed := none, nextId := 0, timers := 0, ctxRunning := false
    decodes := 0, srcSet := false }

/-- The initial autoplay effect (Player.tsx lines 133-138) sets `isPlaying`,
after which the scene playback effect runs for scene 0. -/
def startAuto (cfg : Cfg) : PlayerState :=
  withEffect cfg initState { initState with playing := true }

/-- Scene `i` has narration bytes that decode successfully. -/
def DecOk (cfg : Cfg) (i : ℕ) : Prop :=
  ∃ bytes v, cfg.narration i = some bytes ∧ decodeAudio bytes = .ok v

/-- Fires the completion notification of the currently armed source, if any
(natural end of its narration). -/
def fireCompletion (cfg : Cfg) (s : PlayerState) : PlayerState :=
  match s.armed with
  | some (a, _) => step cfg s (.complete a)
  | none => s

/-- One natural round: the armed source's narration completes, then the
pending inter-scene timeout (if one was scheduled) fires. -/
def natRound (cfg : Cfg) (s : PlayerState) : PlayerState :=
  step cfg (fireCompletion cfg s) .timerFire

/-- Runs `k` natural rounds. -/
def natRun (cfg : Cfg) : ℕ → PlayerState → PlayerState
  | 0, s => s
  | k + 1, s => natRun cfg k (natRound cfg s)

/-- A well-formed mid-playback snapshot: playing scene `i` unmuted, not
ended, with exactly one armed source whose closure captured `i`, and no
pending timeout. -/
def GoodPlaying (i : ℕ) (s : PlayerState) : Prop :=
  s.index = i ∧ s.playing = true ∧ s.muted = false ∧ s.ended = false ∧
    (∃ a, s.armed = some (a, i)) ∧ s.timers = 0

/-! ## Basic lemmas about the playback effect -/

lemma playVoice_frame (cfg : Cfg) (s : PlayerState) :
    (playVoice cfg s).index = s.index ∧ (playVoice cfg s).playing = s.playing ∧
      (playVoice cfg s).muted = s.muted ∧ (playVoice cfg s).ended = s.ended ∧
      (playVoice cfg s).timers = s.timers := by
  unfold playVoice
  cases hn : cfg.narration s.index with
  | none => simp
  | some bytes =>
    cases hd : decodeAudio bytes with
    | error e => simp [hd]
    | ok v => simp [hd]

lemma effect_frame (cfg : Cfg) (s : PlayerState) :
    (effect cfg s).index = s.index ∧ (effect cfg s).playing = s.playing ∧
      (effect cfg s).muted = s.muted ∧ (effect cfg s).ended = s.ended ∧
      (effect cfg s).timers = s.timers := by
  unfold effect
  split
  · simp
  · split
    · simp
    · split
      · split
        · simpa using playVoice_frame cfg { s with ctxRunning := true }
        · simp
      · simp

lemma playVoice_index (cfg : Cfg) (s : PlayerState) : (playVoice cfg s).index = s.index :=
  (playVoice_frame cfg s).1

lemma effect_index (cfg : Cfg) (s : PlayerState) : (effect cfg s).index = s.index :=
  (effect_frame cfg s).1

lemma effect_not_playing (cfg : Cfg) (s : PlayerState) (h : s.playing = false) :
    effect cfg s = s := by
  unfold effect
  simp [h]

lemma withEffect_cases (cfg : Cfg) (s0 s1 : PlayerState) :
    withEffect cfg s0 s1 = s1 ∨ withEffect cfg s0 s1 = effect cfg s1 := by
  unfold withEffect
  split
  · exact Or.inl rfl
  · exact Or.inr rfl

lemma withEffect_deps_eq (cfg : Cfg) (s0 s1 : PlayerState) (h : deps s0 = deps s1) :
    withEffect cfg s0 s1 = s1 := by
  unfold withEffect
  simp [h]

lemma withEffect_not_playing (cfg : Cfg) (s0 s1 : PlayerState) (h : s1.playing = false) :
    withEffect cfg s0 s1 = s1 := by
  rcases withEffect_cases cfg s0 s1 with he | he
  · exact he
  · rw [he, effect_not_playing cfg s1 h]

lemma withEffect_frame (cfg : Cfg) (s0 s1 : PlayerState) :
    (withEffect cfg s0 s1).index = s1.index ∧ (withEffect cfg s0 s1).playing = s1.playing ∧
      (withEffect cfg s0 s1).muted = s1.muted ∧ (withEffect cfg s0 s1).ended = s1.ended ∧
      (withEffect cfg s0 s1).timers = s1.timers := by
  rcases withEffect_cases cfg s0 s1 with he | he
  · rw [he]
    exact ⟨rfl, rfl, rfl, rfl, rfl⟩
  · rw [he]
    exact effect_frame cfg s1

/-! ## Lemmas about completion events -/

lemma onended_stale (cfg : Cfg) (s : PlayerState) (k : ℕ)
    (h : ∀ cap, s.armed ≠ some (k, cap)) : onended cfg s k = s := by
  unfold onended
  cases ha : s.armed with
  | none => rfl
  | some p =>
    obtain ⟨a, cap⟩ := p
    have hak : ¬ (a = k) := fun e => h cap (by rw [ha, e])
    simp [hak]

lemma step_complete_stale (cfg : Cfg) (s : PlayerState) (k : ℕ)
    (h : ∀ cap, s.armed ≠ some (k, cap)) : step cfg s (.complete k) = s := by
  show withEffect cfg s (onended cfg s k) = s
  rw [onended_stale cfg s k h]
  exact withEffect_deps_eq cfg s s rfl

lemma step_complete_disarmed (cfg : Cfg) (s : PlayerState) (k : ℕ)
    (h : s.armed = none) : step cfg s (.complete k) = s :=
  step_complete_stale cfg s k (fun cap hc => by rw [h] at hc; exact Option.noConfusion hc)

lemma complete_current_disarms (cfg : Cfg) (s : PlayerState) (a cap : ℕ)
    (h : s.armed = some (a, cap)) : (step cfg s (.complete a)).armed = none := by
  have hone : onended cfg s a =
      if cap < cfg.N - 1 then { s with armed := none, timers := s.timers + 1 }
      else { s with armed := none, playing := false, ended := true } := by
    unfold onended
    rw [h]
    simp
  show (withEffect cfg s (onended cfg s a)).armed = none
  rw [hone]
  split
  · rw [withEffect_deps_eq cfg s { s with armed := none, timers := s.timers + 1 } rfl]
  · rw [withEffect_not_playing cfg s
      { s with armed := none, playing := false, ended := true } rfl]

/-! ## Computation lemmas for the natural-completion run -/

lemma effect_plays (cfg : Cfg) (s : PlayerState) (bytes : List ℕ) (v : List ℚ)
    (hpl : s.playing = true) (hmu : s.muted = false) (hlt : s.index < cfg.N)
    (hb : cfg.narration s.index = some bytes) (hok : decodeAudio bytes = .ok v) :
    effect cfg s =
      { s with
        ctxRunning := true
        armed := some (s.nextId, s.index)
        nextId := s.nextId + 1
        decodes := s.decodes + 1
        srcSet := true } := by
  unfold effect playVoice
  simp [hpl, hmu, hlt, hb, hok]

lemma step_timerFire_pending (cfg : Cfg) (s : PlayerState) (h : s.timers ≠ 0) :
    step cfg s Ev.timerFire =
      effect cfg { s with timers := s.timers - 1, index := s.index + 1 } := by
  show (if s.timers = 0 then s
    else withEffect cfg s { s with timers := s.timers - 1, index := s.index + 1 }) = _
  rw [if_neg h]
  unfold withEffect
  rw [if_neg (by intro hc; have h2 := congrArg Prod.fst hc; simp [deps] at h2)]

lemma step_timerFire_zero (cfg : Cfg) (s : PlayerState) (h : s.timers = 0) :
    step cfg s Ev.timerFire = s := by
  show (if s.timers = 0 then s
    else withEffect cfg s { s with timers := s.timers - 1, index := s.index + 1 }) = s
  rw [if_pos h]

lemma startAuto_good (cfg : Cfg) (hN : 0 < cfg.N) (hd : DecOk cfg 0) :
    GoodPlaying 0 (startAuto cfg) := by
  obtain ⟨bytes, v, hb, hok⟩ := hd
  unfold startAuto withEffect
  rw [if_neg (by intro hc; have h2 := congrArg (fun p => p.2.1) hc; simp [deps, initState] at h2)]
  rw [effect_plays cfg { initState with playing := true } bytes v rfl rfl
    (by simpa [initState] using hN) (by simpa [initState] using hb) hok]
  exact ⟨rfl, rfl, rfl, rfl, ⟨0, rfl⟩, rfl⟩

lemma natRound_good (cfg : Cfg) (i : ℕ) (s : PlayerState)
    (hg : GoodPlaying i s) (hi : i + 1 < cfg.N) (hd : DecOk cfg (i + 1)) :
    GoodPlaying (i + 1) (natRound cfg s) := by
  obtain ⟨hidx, hpl, hmu, hen, ⟨a, harm⟩, ht⟩ := hg
  obtain ⟨bytes, v, hb, hok⟩ := hd
  have e0 : onended cfg s a = { s with armed := none, timers := s.timers + 1 } := by
    unfold onended
    rw [harm]
    simp [show i < cfg.N - 1 by omega]
  have e1 : fireCompletion cfg s = { s with armed := none, timers := s.timers + 1 } := by
    unfold fireCompletion
    rw [harm]
    show withEffect cfg s (onended cfg s a) = _
    rw [e0]
    exact withEffect_deps_eq cfg s _ rfl
  have e2 : step cfg { s with armed := none, timers := s.timers + 1 } Ev.timerFire =
      effect cfg
        { s with
          armed := none
          timers := s.timers + 1 - 1
          index := s.index + 1 } :=
    step_timerFire_pending cfg { s with armed := none, timers := s.timers + 1 } (by simp)
  have e3 : effect cfg
        { s with
          armed := none
          timers := s.timers + 1 - 1
          index := s.index + 1 } =
      { s with
        armed := some (s.nextId, s.index + 1)
        timers := s.timers + 1 - 1
        index := s.index + 1
        ctxRunning := true
        nextId := s.nextId + 1
        decodes := s.decodes + 1
        srcSet := true } :=
    effect_plays cfg _ bytes v hpl hmu
      (by show s.index + 1 < cfg.N; omega)
      (by show cfg.narration (s.index + 1) = some bytes; rw [hidx]; exact hb) hok
  show GoodPlaying (i + 1) (step cfg (fireCompletion cfg s) Ev.timerFire)
  rw [e1, e2, e3]
  exact ⟨by show s.index + 1 = i + 1; omega, hpl, hmu, hen,
    ⟨s.nextId, by show some (s.nextId, s.index + 1) = some (s.nextId, i + 1); rw [hidx]⟩,
    by show s.timers + 1 - 1 = 0; omega⟩

lemma natRound_last (cfg : Cfg) (i : ℕ) (s : PlayerState)
    (hg : GoodPlaying i s) (hlast : cfg.N ≤ i + 1) :
    natRound cfg s = { s with armed := none, playing := false, ended := true } := by
  obtain ⟨hidx, hpl, hmu, hen, ⟨a, harm⟩, ht⟩ := hg
  have e0 : onended cfg s a = { s with armed := none, playing := false, ended := true } := by
    unfold onended
    rw [harm]
    simp [show ¬ (i < cfg.N - 1) by omega]
  have e1 : fireCompletion cfg s = { s with armed := none, playing := false, ended := true } := by
    unfold fireCompletion
    rw [harm]
    show withEffect cfg s (onended cfg s a) = _
    rw [e0]
    exact withEffect_not_playing cfg s _ rfl
  unfold natRound
  rw [e1, step_timerFire_zero cfg _ (by simpa using ht)]

lemma natRun_peel_back (cfg : Cfg) (k : ℕ) (s : PlayerState) :
    natRun cfg (k + 1) s = natRound cfg (natRun cfg k s) := by
  induction k generalizing s with
  | zero => rfl
  | succ n ih =>
    show natRun cfg (n + 1) (natRound cfg s) = _
    rw [ih (natRound cfg s)]
    rfl

lemma natRun_good (cfg : Cfg) (k i : ℕ) (s : PlayerState)
    (hg : GoodPlaying i s) (hk : i + k < cfg.N)
    (hd : ∀ m, m < cfg.N → DecOk cfg m) :
    GoodPlaying (i + k) (natRun cfg k s) := by
  induction k generalizing i s with
  | zero => simpa using hg
  | succ n ih =>
    have h1 := natRound_good cfg i s hg (by omega) (hd (i + 1) (by omega))
    have h2 := ih (i + 1) (natRound cfg s) h1 (by omega)
    show GoodPlaying (i + (n + 1)) (natRun cfg n (natRound cfg s))
    rw [show i + (n + 1) = (i + 1) + n from by omega]
    exact h2

/-! ## Concrete configurations used by witnesses and counterexamples -/

/-- Two scenes, both with decodable narration. -/
def cfgTwo : Cfg := ⟨2, fun _ => some [0, 1]⟩

/-- Three scenes, all with decodable narration. -/
def cfgThree : Cfg := ⟨3, fun _ => some [0, 1]⟩

/-- Three scenes with narration present for scenes 0 and 2, absent for scene 1. -/
def cfgGap : Cfg := ⟨3, fun i => if i = 1 then none else some [0, 1]⟩

/-- One scene with decodable narration. -/
def cfgOne : Cfg := ⟨1, fun _ => some [0, 1]⟩

/-- One scene whose narration payload is empty (decoding fails). -/
def cfgEmpty : Cfg := ⟨1, fun _ => some []⟩

/-! ## Claims -/

/-- C1: when the active narration source is replaced mid-flight by a
user-initiated play of another scene, the newly armed source carries a fresh
identity, the completion event of the superseded source is discarded (it is
a no-op, so it never triggers a state transition after the newer source has
been armed), and the newer source's own completion event transitions at most
once (re-delivering it is a no-op), so each user-initiated play causes at
most one index advance. -/
theorem c1_superseded_completion_discarded (cfg : Cfg) (s : PlayerState) (a cap j : ℕ)
    (harm : s.armed = some (a, cap)) (hfresh : a < s.nextId) (hj : j < cfg.N)
    (hne : j ≠ s.index) (hmu : s.muted = false) (hd : DecOk cfg j) :
    (step cfg s (Ev.uSelect j)).armed = some (s.nextId, j) ∧
    s.nextId ≠ a ∧
    step cfg (step cfg s (Ev.uSelect j)) (Ev.complete a) = step cfg s (Ev.uSelect j) ∧
    step cfg (step cfg (step cfg s (Ev.uSelect j)) (Ev.complete s.nextId)) (Ev.complete s.nextId)
      = step cfg (step cfg s (Ev.uSelect j)) (Ev.complete s.nextId) := by
  obtain ⟨bytes, v, hb, hok⟩ := hd
  have e1 : step cfg s (Ev.uSelect j) =
      { s with
        index := j
        playing := true
        ended := false
        ctxRunning := true
        armed := some (s.nextId, j)
        nextId := s.nextId + 1
        decodes := s.decodes + 1
        srcSet := true } := by
    show withEffect cfg s (handleSelect j s) = _
    unfold withEffect
    rw [if_neg (by
      intro hc
      apply hne
      have h2 := congrArg Prod.fst hc
      simpa [deps, handleSelect] using h2.symm)]
    exact effect_plays cfg (handleSelect j s) bytes v rfl hmu hj hb hok
  refine ⟨by rw [e1], Nat.ne_of_gt hfresh, ?_, ?_⟩
  · apply step_complete_stale
    intro cap' hcontra
    rw [e1] at hcontra
    have h2 : s.nextId = a ∧ j = cap' := by simpa using hcontra
    omega
  · apply step_complete_stale
    intro cap' hcontra
    have hnone : (step cfg (step cfg s (Ev.uSelect j)) (Ev.complete s.nextId)).armed = none :=
      complete_current_disarms cfg _ s.nextId j (by rw [e1])
    rw [hnone] at hcontra
    exact Option.noConfusion hcontra

/-- Witness for C1 at a concrete input: in a 3-scene run, during `Playing(0)`
with source 0 armed, selecting scene 1 arms the fresh source 1; the stale
completion of source 0 is then a no-op, and re-delivering source 1's
completion after it fired once is also a no-op. -/
theorem c1_witness :
    (step cfgThree (startAuto cfgThree) (Ev.uSelect 1)).armed =
      some ((startAuto cfgThree).nextId, 1) ∧
    (startAuto cfgThree).nextId ≠ 0 ∧
    step cfgThree (step cfgThree (startAuto cfgThree) (Ev.uSelect 1)) (Ev.complete 0) =
      step cfgThree (startAuto cfgThree) (Ev.uSelect 1) ∧
    step cfgThree
        (step cfgThree (step cfgThree (startAuto cfgThree) (Ev.uSelect 1))
          (Ev.complete (startAuto cfgThree).nextId))
        (Ev.complete (startAuto cfgThree).nextId) =
      step cfgThree (step cfgThree (startAuto cfgThree) (Ev.uSelect 1))
        (Ev.complete (startAuto cfgThree).nextId) :=
  c1_superseded_completion_discarded cfgThree (startAuto cfgThree) 0 0 1
    (by decide) (by decide) (by decide) (by decide) (by decide)
    ⟨[0, 1], decodedSamples [0, 1], rfl, rfl⟩

/-- C2 (code bug): the specified absence-of-audio fallback timer does not
exist in the code.  With 3 scenes whose middle scene has no narration, after
scene 0 completes naturally the machine reaches `Playing(1)` with no source
armed and no timer pending, and every further completion or timer event is a
no-op: the session stalls at `Playing(1)` instead of advancing to
`Playing(2)` and `Ended`. -/
theorem c2_missing_narration_stalls :
    (natRun cfgGap 1 (startAuto cfgGap)).index = 1 ∧
    (natRun cfgGap 1 (startAuto cfgGap)).playing = true ∧
    (natRun cfgGap 1 (startAuto cfgGap)).ended = false ∧
    (natRun cfgGap 1 (startAuto cfgGap)).armed = none ∧
    (natRun cfgGap 1 (startAuto cfgGap)).timers = 0 ∧
    (∀ k, step cfgGap (natRun cfgGap 1 (startAuto cfgGap)) (Ev.complete k) =
      natRun cfgGap 1 (startAuto cfgGap)) ∧
    step cfgGap (natRun cfgGap 1 (startAuto cfgGap)) Ev.timerFire =
      natRun cfgGap 1 (startAuto cfgGap) := by
  refine ⟨by decide, by decide, by decide, by decide, by decide, ?_, by decide⟩
  intro k
  exact step_complete_disarmed cfgGap _ k (by decide)

/-- C3 (code bug): the 1-second inter-scene auto-advance timeout is never
cancelled.  With 2 scenes, after scene 0 completes naturally (timeout
pending) the user presses next during the gap, moving to index 1; the
pending timeout then fires as well and advances the index again, to 2 —
outside the valid range `[0, 2)` — so the manual navigation is not the only
index change. -/
theorem c3_gap_navigation_double_advance :
    (step cfgTwo (startAuto cfgTwo) (Ev.complete 0)).timers = 1 ∧
    (step cfgTwo (step cfgTwo (startAuto cfgTwo) (Ev.complete 0)) Ev.uNext).index = 1 ∧
    (step cfgTwo (step cfgTwo (step cfgTwo (startAuto cfgTwo) (Ev.complete 0)) Ev.uNext)
      Ev.timerFire).index = 2 ∧
    ¬ ((step cfgTwo (step cfgTwo (step cfgTwo (startAuto cfgTwo) (Ev.complete 0)) Ev.uNext)
      Ev.timerFire).index < cfgTwo.N) := by decide

/-- C4: for every scene sequence of length N ≥ 1 in which every scene's
narration decodes, starting from `Playing(0)` and letting every narration
complete naturally, the index after k completions is exactly k (strictly
increasing by one per completion, still playing and not ended while k < N),
and after exactly N completions the session is `Ended` (not playing, index
at the last scene). -/
theorem c4_natural_run_reaches_ended (cfg : Cfg) (hN : 1 ≤ cfg.N)
    (hd : ∀ m, m < cfg.N → DecOk cfg m) :
    (∀ k, k < cfg.N →
      (natRun cfg k (startAuto cfg)).index = k ∧
      (natRun cfg k (startAuto cfg)).playing = true ∧
      (natRun cfg k (startAuto cfg)).ended = false) ∧
    (natRun cfg cfg.N (startAuto cfg)).ended = true ∧
    (natRun cfg cfg.N (startAuto cfg)).playing = false ∧
    (natRun cfg cfg.N (startAuto cfg)).index = cfg.N - 1 := by
  have hg0 := startAuto_good cfg (by omega) (hd 0 (by omega))
  have hmain : ∀ k, k < cfg.N → GoodPlaying k (natRun cfg k (startAuto cfg)) := by
    intro k hk
    have h := natRun_good cfg k 0 (startAuto cfg) hg0 (by omega) hd
    simpa using h
  constructor
  · intro k hk
    obtain ⟨h1, h2, _, h4, _, _⟩ := hmain k hk
    exact ⟨h1, h2, h4⟩
  · have hgl := hmain (cfg.N - 1) (by omega)
    have hrw : natRun cfg cfg.N (startAuto cfg) =
        natRound cfg (natRun cfg (cfg.N - 1) (startAuto cfg)) := by
      conv_lhs => rw [show cfg.N = (cfg.N - 1) + 1 from by omega]
      exact natRun_peel_back cfg (cfg.N - 1) (startAuto cfg)
    have hla := natRound_last cfg (cfg.N - 1)
      (natRun cfg (cfg.N - 1) (startAuto cfg)) hgl (by omega)
    rw [hrw, hla]
    refine ⟨rfl, rfl, ?_⟩
    show (natRun cfg (cfg.N - 1) (startAuto cfg)).index = cfg.N - 1
    exact hgl.1

/-- Witness for C4 at a concrete input: a 2-scene run with decodable
narration reaches `Ended` after exactly 2 natural completions, with index 1
after the first completion. -/
theorem c4_witness :
    (natRun cfgTwo 2 (startAuto cfgTwo)).ended = true ∧
    (natRun cfgTwo 2 (startAuto cfgTwo)).playing = false ∧
    (natRun cfgTwo 1 (startAuto cfgTwo)).index = 1 ∧
    (natRun cfgTwo 1 (startAuto cfgTwo)).ended = false := by
  have h := c4_natural_run_reaches_ended cfgTwo (by decide)
    (fun m hm => ⟨[0, 1], decodedSamples [0, 1], rfl, rfl⟩)
  obtain ⟨hk, he, hp, _⟩ := h
  obtain ⟨h1, _, h3⟩ := hk 1 (by decide)
  exact ⟨he, hp, h1, h3⟩

/-- C5 (code bug): resuming after a pause does not reuse the existing
source.  With 3 scenes, pausing during `Playing(1)` keeps the existing
source (identity 1) armed, but the subsequent play intent re-runs the scene
playback effect (its `isPlaying` dependency changed), which re-invokes
`playVoice`: the narration is decoded again (decode counter increments) and
a fresh source replaces the paused one, restarting scene 1 from the
beginning. -/
theorem c5_resume_redecodes_and_restarts :
    (natRun cfgThree 1 (startAuto cfgThree)).armed = some (1, 1) ∧
    (step cfgThree (natRun cfgThree 1 (startAuto cfgThree)) Ev.uPlayPause).playing = false ∧
    (step cfgThree (natRun cfgThree 1 (startAuto cfgThree)) Ev.uPlayPause).armed = some (1, 1) ∧
    (step cfgThree (step cfgThree (natRun cfgThree 1 (startAuto cfgThree)) Ev.uPlayPause)
      Ev.uPlayPause).playing = true ∧
    (step cfgThree (step cfgThree (natRun cfgThree 1 (startAuto cfgThree)) Ev.uPlayPause)
      Ev.uPlayPause).index = 1 ∧
    (step cfgThree (step cfgThree (natRun cfgThree 1 (startAuto cfgThree)) Ev.uPlayPause)
      Ev.uPlayPause).decodes =
      (natRun cfgThree 1 (startAuto cfgThree)).decodes + 1 ∧
    (step cfgThree (step cfgThree (natRun cfgThree 1 (startAuto cfgThree)) Ev.uPlayPause)
      Ev.uPlayPause).armed ≠ (natRun cfgThree 1 (startAuto cfgThree)).armed := by decide

/-! ## Decoder lemmas -/

lemma pcmSamples_length : ∀ bytes : List ℕ, (pcmSamples bytes).length = bytes.length / 2
  | [] => by simp [pcmSamples]
  | [b] => by simp [pcmSamples]
  | lo :: hi :: rest => by
    have ih := pcmSamples_length rest
    simp only [pcmSamples, List.length_cons]
    omega

lemma pcmSamples_get? : ∀ (bytes : List ℕ) (i : ℕ), 2 * i + 1 < bytes.length →
    (pcmSamples bytes).get? i =
      some (toInt16 (bytes.getD (2 * i) 0) (bytes.getD (2 * i + 1) 0))
  | [], i, h => by simp at h
  | [b], i, h => by simp at h
  | lo :: hi :: rest, 0, _ => by simp [pcmSamples]
  | lo :: hi :: rest, i + 1, h => by
    have ih := pcmSamples_get? rest i (by simp at h; omega)
    have h2 : 2 * (i + 1) = 2 * i + 1 + 1 := by ring
    have h3 : 2 * (i + 1) + 1 = 2 * i + 1 + 1 + 1 := by ring
    simp only [pcmSamples, List.get?_cons_succ, h2, h3, List.getD_cons_succ]
    exact ih

/-- C6: decoding maps each signed 16-bit little-endian sample `s` of the
byte payload to `s / 32768`, and an odd byte length is truncated to even, so
a payload of `len` bytes yields exactly `len / 2` samples; the i-th sample
is the little-endian signed 16-bit value of bytes `2*i` and `2*i+1`, scaled
by `1 / 32768`. -/
theorem c6_pcm_decode_truncates_and_scales (bytes : List ℕ) :
    (decodedSamples bytes).length = bytes.length / 2 ∧
    ∀ i : ℕ, 2 * i + 1 < bytes.length →
      (decodedSamples bytes).get? i =
        some ((toInt16 (bytes.getD (2 * i) 0) (bytes.getD (2 * i + 1) 0) : ℚ) / 32768) := by
  constructor
  · show ((pcmSamples bytes).map (fun s : ℤ => (s : ℚ) / 32768)).length = bytes.length / 2
    rw [List.length_map, pcmSamples_length]
  · intro i hi
    show ((pcmSamples bytes).map (fun s : ℤ => (s : ℚ) / 32768)).get? i = _
    rw [List.get?_map, pcmSamples_get? bytes i hi]
    rfl

/-- Witness for C6 at a concrete input: the 5-byte payload
`[1, 0, 255, 255, 9]` decodes to exactly 2 samples (the trailing byte 9 is
discarded); sample 0 is `1 / 32768` and sample 1 is `-1 / 32768` (bytes
`255, 255` read as the little-endian signed value -1). -/
theorem c6_witness :
    (decodedSamples [1, 0, 255, 255, 9]).length = 2 ∧
    (decodedSamples [1, 0, 255, 255, 9]).get? 0 = some ((1 : ℚ) / 32768) ∧
    (decodedSamples [1, 0, 255, 255, 9]).get? 1 = some ((-1 : ℚ) / 32768) := by
  have h := c6_pcm_decode_truncates_and_scales [1, 0, 255, 255, 9]
  refine ⟨h.1, ?_, ?_⟩
  · have h0 := h.2 0 (by decide)
    rw [h0]
    norm_num [toInt16]
  · have h1 := h.2 1 (by decide)
    rw [h1]
    norm_num [toInt16]

/-- C7: decoding a zero-length narration payload yields a decode error, and
the error is never fatal: when the current scene's payload is empty, running
the scene playback effect leaves index, playing, ended, muted and the decode
counter unchanged (no narration is decoded or scheduled — the scene behaves
as having no narration available). -/
theorem c7_empty_payload_decode_error_not_fatal (cfg : Cfg) (s : PlayerState)
    (h : cfg.narration s.index = some []) :
    decodeAudio [] = .error DecodeError.emptyInput ∧
    (effect cfg s).index = s.index ∧
    (effect cfg s).playing = s.playing ∧
    (effect cfg s).ended = s.ended ∧
    (effect cfg s).muted = s.muted ∧
    (effect cfg s).decodes = s.decodes := by
  have hfr := effect_frame cfg s
  refine ⟨rfl, hfr.1, hfr.2.1, hfr.2.2.2.1, hfr.2.2.1, ?_⟩
  unfold effect
  split
  · rfl
  · split
    · rfl
    · split
      · simp [playVoice, decodeAudio, h]
      · rfl

/-- Witness for C7 at a concrete input: in a 1-scene run whose narration
payload is empty, the playback effect on the freshly started state keeps the
index at 0 and performs no decode. -/
theorem c7_witness :
    decodeAudio [] = .error DecodeError.emptyInput ∧
    (effect cfgEmpty { initState with playing := true }).index = 0 ∧
    (effect cfgEmpty { initState with playing := true }).decodes = 0 := by
  have h := c7_empty_payload_decode_error_not_fatal cfgEmpty
    { initState with playing := true } rfl
  exact ⟨h.1, h.2.1, h.2.2.2.2.2⟩

/-- C8 counterexample: the claim that toggling mute never stops or restarts
the active source fails on the code.  In a 3-scene run playing scene 0 with
source 0 armed, muting keeps source 0, but unmuting re-runs the scene
playback effect (its `isMuted` dependency changed), which re-invokes
`playVoice`: a fresh source (identity 1) replaces source 0 and the narration
is decoded again, so the playback position is lost. -/
theorem c8_counterexample_unmute_restarts :
    (step cfgThree (startAuto cfgThree) Ev.uMute).armed = (startAuto cfgThree).armed ∧
    (step cfgThree (step cfgThree (startAuto cfgThree) Ev.uMute) Ev.uMute).armed ≠
      (step cfgThree (startAuto cfgThree) Ev.uMute).armed ∧
    (step cfgThree (step cfgThree (startAuto cfgThree) Ev.uMute) Ev.uMute).decodes =
      (step cfgThree (startAuto cfgThree) Ev.uMute).decodes + 1 := by decide

/-- C8 (amended): toggling mute never changes index, playing or ended (so it
never causes a state-machine transition), and muting while playing only
suspends the output device, keeping the armed source; however, unmuting
while playing re-issues play of the current scene, restarting the active
source (shown by the counterexample). -/
theorem c8_mute_toggle_frame (cfg : Cfg) (s : PlayerState) :
    (step cfg s Ev.uMute).index = s.index ∧
    (step cfg s Ev.uMute).playing = s.playing ∧
    (step cfg s Ev.uMute).ended = s.ended ∧
    (s.muted = false → s.playing = true →
      (step cfg s Ev.uMute).ctxRunning = false ∧ (step cfg s Ev.uMute).armed = s.armed) := by
  have hframe := withEffect_frame cfg s { s with muted := !s.muted }
  refine ⟨hframe.1, hframe.2.1, hframe.2.2.2.1, ?_⟩
  intro hmu hpl
  have hdep : ¬ (deps s = deps ({ s with muted := !s.muted } : PlayerState)) := by
    intro hc
    have h2 := congrArg (fun p => p.2.2) hc
    simp [deps] at h2
  have he : step cfg s Ev.uMute = effect cfg { s with muted := !s.muted } := by
    show withEffect cfg s { s with muted := !s.muted } = _
    unfold withEffect
    rw [if_neg hdep]
  rw [he]
  unfold effect
  rw [if_neg (by simp [hpl]), if_pos (by simp [hmu])]
  exact ⟨rfl, rfl⟩

/-- Witness for the amended C8 at a concrete input: muting the freshly
started 3-scene run keeps index, playing and the armed source, and suspends
the device. -/
theorem c8_witness :
    (step cfgThree (startAuto cfgThree) Ev.uMute).index = (startAuto cfgThree).index ∧
    (step cfgThree (startAuto cfgThree) Ev.uMute).playing = (startAuto cfgThree).playing ∧
    (step cfgThree (startAuto cfgThree) Ev.uMute).ctxRunning = false ∧
    (step cfgThree (startAuto cfgThree) Ev.uMute).armed = (startAuto cfgThree).armed := by
  have h := c8_mute_toggle_frame cfgThree (startAuto cfgThree)
  have h4 := h.2.2.2 rfl rfl
  exact ⟨h.1, h.2.1, h4.1, h4.2⟩

/-- C9 counterexample: the claim that `selectScene(j)` with j outside
`[0, N)` leaves the state unchanged fails on the code: the thumbnail click
handler performs no range check, so selecting index 5 in a 3-scene run sets
the index to 5, outside `[0, 3)`, changing the state. -/
theorem c9_counterexample_select_out_of_range :
    (step cfgThree (startAuto cfgThree) (Ev.uSelect 5)).index = 5 ∧
    ¬ ((step cfgThree (startAuto cfgThree) (Ev.uSelect 5)).index < cfgThree.N) ∧
    step cfgThree (startAuto cfgThree) (Ev.uSelect 5) ≠ startAuto cfgThree := by decide

/-- C9 (amended): the invariant `index ∈ [0, sceneCount)` is preserved by
every user operation the UI can issue: next and prev are clamped to
`[0, last]` and leave index and playing unchanged at the boundaries,
play/pause, mute and replay keep the index in range, and selecting any
in-range index keeps the index in range.  `selectScene` itself performs no
range check (see the counterexample), but the UI only invokes it with
indices of existing scene thumbnails. -/
theorem c9_user_ops_preserve_index_range (cfg : Cfg) (s : PlayerState)
    (h : s.index < cfg.N) :
    (step cfg s Ev.uNext).index < cfg.N ∧
    (step cfg s Ev.uPrev).index < cfg.N ∧
    (step cfg s Ev.uPlayPause).index < cfg.N ∧
    (step cfg s Ev.uMute).index < cfg.N ∧
    (step cfg s Ev.uReplay).index < cfg.N ∧
    (∀ j, j < cfg.N → (step cfg s (Ev.uSelect j)).index < cfg.N) ∧
    (cfg.N - 1 ≤ s.index →
      (step cfg s Ev.uNext).index = s.index ∧ (step cfg s Ev.uNext).playing = s.playing) ∧
    (s.index = 0 →
      (step cfg s Ev.uPrev).index = s.index ∧ (step cfg s Ev.uPrev).playing = s.playing) := by
  refine ⟨?_, ?_, ?_, ?_, ?_, ?_, ?_, ?_⟩
  · show (withEffect cfg s (handleNext cfg s)).index < cfg.N
    rw [(withEffect_frame cfg s (handleNext cfg s)).1]
    unfold handleNext
    split
    · show s.index + 1 < cfg.N
      omega
    · exact h
  · show (withEffect cfg s (handlePrev s)).index < cfg.N
    rw [(withEffect_frame cfg s (handlePrev s)).1]
    unfold handlePrev
    split
    · show s.index - 1 < cfg.N
      omega
    · exact h
  · show (withEffect cfg s (handlePlayPause cfg s)).index < cfg.N
    rw [(withEffect_frame cfg s (handlePlayPause cfg s)).1]
    have hpp : (handlePlayPause cfg s).index = s.index ∨ (handlePlayPause cfg s).index = 0 := by
      unfold handlePlayPause
      repeat' split
      all_goals first
        | exact Or.inl rfl
        | exact Or.inr rfl
        | (rw [playVoice_index]; exact Or.inl rfl)
    rcases hpp with he | he <;> rw [he] <;> omega
  · show (withEffect cfg s { s with muted := !s.muted }).index < cfg.N
    rw [(withEffect_frame cfg s { s with muted := !s.muted }).1]
    exact h
  · show (withEffect cfg s (handleReplay s)).index < cfg.N
    rw [(withEffect_frame cfg s (handleReplay s)).1]
    show (0 : ℕ) < cfg.N
    omega
  · intro j hj
    show (withEffect cfg s (handleSelect j s)).index < cfg.N
    rw [(withEffect_frame cfg s (handleSelect j s)).1]
    exact hj
  · intro hb
    have hh : handleNext cfg s = { s with ended := false } := by
      unfold handleNext
      rw [if_neg (by omega)]
    constructor
    · show (withEffect cfg s (handleNext cfg s)).index = s.index
      rw [(withEffect_frame cfg s (handleNext cfg s)).1, hh]
    · show (withEffect cfg s (handleNext cfg s)).playing = s.playing
      rw [(withEffect_frame cfg s (handleNext cfg s)).2.1, hh]
  · intro hb
    have hh : handlePrev s = { s with ended := false } := by
      unfold handlePrev
      rw [if_neg (by omega)]
    constructor
    · show (withEffect cfg s (handlePrev s)).index = s.index
      rw [(withEffect_frame cfg s (handlePrev s)).1, hh]
    · show (withEffect cfg s (handlePrev s)).playing = s.playing
      rw [(withEffect_frame cfg s (handlePrev s)).2.1, hh]

/-- Witness for the amended C9 at a concrete input: in the freshly started
3-scene run (index 0), next keeps the index in range, selecting scene 2
keeps the index in range, and prev at the lower boundary leaves index and
playing unchanged. -/
theorem c9_witness :
    (step cfgThree (startAuto cfgThree) Ev.uNext).index < cfgThree.N ∧
    (step cfgThree (startAuto cfgThree) (Ev.uSelect 2)).index < cfgThree.N ∧
    (step cfgThree (startAuto cfgThree) Ev.uPrev).index = (startAuto cfgThree).index := by
  have h := c9_user_ops_preserve_index_range cfgThree (startAuto cfgThree) (by decide)
  exact ⟨h.1, h.2.2.2.2.2.1 2 (by decide), (h.2.2.2.2.2.2.2 rfl).1⟩

/-- C10: calling next at the last scene, or prev at index 0, leaves every
component of the state unchanged except the ended flag, which is
unconditionally cleared; hence a boundary navigation intent in the `Ended`
state exits the ended presentation without changing the scene or starting
playback. -/
theorem c10_boundary_nav_clears_ended (cfg : Cfg) (s : PlayerState) :
    (cfg.N - 1 ≤ s.index → step cfg s Ev.uNext = { s with ended := false }) ∧
    (s.index = 0 → step cfg s Ev.uPrev = { s with ended := false }) := by
  constructor
  · intro hb
    show withEffect cfg s (handleNext cfg s) = _
    have hh : handleNext cfg s = { s with ended := false } := by
      unfold handleNext
      rw [if_neg (by omega)]
    rw [hh]
    exact withEffect_deps_eq cfg s _ rfl
  · intro hb
    show withEffect cfg s (handlePrev s) = _
    have hh : handlePrev s = { s with ended := false } := by
      unfold handlePrev
      rw [if_neg (by omega)]
    rw [hh]
    exact withEffect_deps_eq cfg s _ rfl

/-- Witness for C10 at a concrete input: in the `Ended` state of a 1-scene
run (index 0, not playing, ended), both next and prev clear only the ended
flag. -/
theorem c10_witness :
    step cfgOne (natRun cfgOne 1 (startAuto cfgOne)) Ev.uNext =
      { natRun cfgOne 1 (startAuto cfgOne) with ended := false } ∧
    step cfgOne (natRun cfgOne 1 (startAuto cfgOne)) Ev.uPrev =
      { natRun cfgOne 1 (startAuto cfgOne) with ended := false } := by
  have h := c10_boundary_nav_clears_ended cfgOne (natRun cfgOne 1 (startAuto cfgOne))
  exact ⟨h.1 (by decide), h.2 (by decide)⟩

end PoemVisualizer
